import Mathlib

/-!
# The recursive ray tracer of `main.cpp`

A shallow embedding of the five functions of `main.cpp`
(`hasIntersection`, `getClosestIntersection`, `raytraceSingleRay`,
`getRaysForViewpoint`, `raytraceImage`) and proofs about them.

Conventions of the embedding.

* `float` values are exact rationals (`ℚ`): every statement below is a
  statement about the program in exact arithmetic. `int` values are `Int`.
* Everything the five functions use but `main.cpp` does not define (the GLM
  vector functions, the Phong accessors of `Lighting.h`, the viewport read by
  `ImageBuffer::Initialize`, the contents of indeterminate storage) is a field
  of the structure `Env`, over which every theorem is universally quantified.
* A `for` loop over the shapes is a recursion or a fold over the list of shapes,
  a counting `for` loop is a recursion on the counter.
-/

namespace RayTracer

/-! ## Data model -/

/-- A `glm::vec3` in exact arithmetic. -/
structure Vec3 where
  x : ℚ
  y : ℚ
  z : ℚ
  deriving DecidableEq

/-- The vector `glm::vec3(0, 0, 0)`. -/
def Vec3.zero : Vec3 := ⟨0, 0, 0⟩

/-- Componentwise `operator+` of `glm::vec3`. -/
def Vec3.add (a b : Vec3) : Vec3 := ⟨a.x + b.x, a.y + b.y, a.z + b.z⟩

/-- Componentwise `operator-` of `glm::vec3`. -/
def Vec3.sub (a b : Vec3) : Vec3 := ⟨a.x - b.x, a.y - b.y, a.z - b.z⟩

/-- Componentwise `operator*` of `glm::vec3`. -/
def Vec3.mul (a b : Vec3) : Vec3 := ⟨a.x * b.x, a.y * b.y, a.z * b.z⟩

instance : Add Vec3 := ⟨Vec3.add⟩
instance : Sub Vec3 := ⟨Vec3.sub⟩
instance : Mul Vec3 := ⟨Vec3.mul⟩

/-- Modelled from the spec: the material record of `RayTrace.h` (not among the
sources), with the fields of section 3; `main.cpp` reads and writes only
`reflectionStrength`. -/
structure Material where
  ambient : Vec3
  diffuse : Vec3
  specular : Vec3
  shininess : ℚ
  reflectionStrength : Vec3
  deriving DecidableEq

/-- Modelled from the spec: the ray record of `RayTrace.h` (not among the
sources): an origin and a direction, stored as given to the constructor. -/
structure Ray where
  origin : Vec3
  direction : Vec3
  deriving DecidableEq

/-- Modelled from the spec: the intersection record of `RayTrace.h` (not among
the sources), with the five fields `main.cpp` reads. -/
structure Intersection where
  numberOfIntersections : Int
  point : Vec3
  normal : Vec3
  material : Material
  id : Int
  deriving DecidableEq

/-- A shape as `main.cpp` sees it: its `id` and its virtual `getIntersection`. -/
structure Shape where
  id : Int
  getIntersection : Ray → Intersection

/-- The scene: the shapes in stored order and the light position. -/
structure Scene where
  shapesInScene : List Shape
  lightPosition : Vec3

/-- The `PhongReflection` object of `raytraceSingleRay`: the four fields the
function assigns. -/
structure PhongReflection where
  ray : Ray
  scene : Scene
  material : Material
  intersection : Intersection

/-- What `main.cpp` takes from outside itself. -/
structure Env where
  /-- The function `glm::distance`. -/
  distance : Vec3 → Vec3 → ℚ
  /-- The function `glm::normalize`. -/
  normalize : Vec3 → Vec3
  /-- The function `reflect` on vectors. -/
  reflect : Vec3 → Vec3 → Vec3
  /-- The accessor `PhongReflection::Is` (specular term). -/
  Is : PhongReflection → Vec3
  /-- The accessor `PhongReflection::Id` (diffuse term). -/
  Id : PhongReflection → Vec3
  /-- The accessor `PhongReflection::Ia` (ambient term). -/
  Ia : PhongReflection → Vec3
  /-- The accessor `PhongReflection::I` (combined colour). -/
  I : PhongReflection → Vec3
  /-- The fields of a default-constructed `Intersection` other than its count. -/
  undefinedIntersection : Intersection
  /-- The contents of a declared and not yet assigned `glm::vec3`. -/
  indeterminate : Vec3
  /-- The viewport width `ImageBuffer::Initialize` resizes to. -/
  viewportWidth : Int
  /-- The viewport height `ImageBuffer::Initialize` resizes to. -/
  viewportHeight : Int

/-- Modelled from the spec: the default-constructed `Intersection` of
`RayTrace.h` (not among the sources) is the zero-count sentinel; its other
fields are whatever the environment holds. -/
def Env.sentinel (E : Env) : Intersection :=
  { E.undefinedIntersection with numberOfIntersections := 0 }

/-- The constant `std::numeric_limits<float>::max()`, `(2 - 2^(-23)) * 2^127`. -/
def FLT_MAX : ℚ := 340282346638528859811704183484516925440

/-! ## Scene queries -/

/-- The `if` of `hasIntersection`: the four tests, in the order of the source. -/
def occludes (E : Env) (scene : Scene) (ray : Ray) (skipID : Int) (shape : Shape) : Prop :=
  shape.id ≠ skipID
    ∧ (shape.getIntersection ray).numberOfIntersections ≠ 0
    ∧ E.distance (shape.getIntersection ray).point ray.origin > 1 / 100000
    ∧ E.distance (shape.getIntersection ray).point ray.origin
        < E.distance ray.origin scene.lightPosition - 1 / 100

instance (E : Env) (scene : Scene) (ray : Ray) (skipID : Int) (shape : Shape) :
    Decidable (occludes E scene ray skipID shape) := by
  unfold occludes; infer_instance

/-- The loop of `hasIntersection` over the shapes still to visit. -/
def hasIntersectionLoop (E : Env) (scene : Scene) (ray : Ray) (skipID : Int) :
    List Shape → Int
  | [] => -1
  | shape :: rest =>
    let tmp := shape.getIntersection ray
    if occludes E scene ray skipID shape then tmp.id
    else hasIntersectionLoop E scene ray skipID rest

/-- The function `hasIntersection(scene, ray, skipID)`. -/
def hasIntersection (E : Env) (scene : Scene) (ray : Ray) (skipID : Int) : Int :=
  hasIntersectionLoop E scene ray skipID scene.shapesInScene

/-- One iteration of the loop of `getClosestIntersection` on the state
`(min, closestIntersection)`. -/
def closestStep (E : Env) (ray : Ray) (skipID : Int) (st : ℚ × Intersection)
    (shape : Shape) : ℚ × Intersection :=
  if skipID = shape.id then st
  else
    let p := shape.getIntersection ray
    let distance := E.distance p.point ray.origin
    if p.numberOfIntersections ≠ 0 ∧ distance < st.1 then (distance, p) else st

/-- The function `getClosestIntersection(scene, ray, skipID)`. -/
def getClosestIntersection (E : Env) (scene : Scene) (ray : Ray) (skipID : Int) :
    Intersection :=
  (scene.shapesInScene.foldl (closestStep E ray skipID) (FLT_MAX, E.sentinel)).2

/-! ## The recursive tracer -/

/-- The shadow ray of `raytraceSingleRay`, from the hit point toward the light. -/
def shadowRay (E : Env) (scene : Scene) (result : Intersection) : Ray :=
  Ray.mk result.point (E.normalize (scene.lightPosition - result.point))

/-- The reflection ray of `raytraceSingleRay`. -/
def reflectionRay (E : Env) (ray : Ray) (result : Intersection) : Ray :=
  Ray.mk result.point (E.reflect ray.direction result.normal)

/-- The function `raytraceSingleRay(scene, ray, level, source_id)`. -/
def raytraceSingleRay (E : Env) (scene : Scene) (ray : Ray) (level : Int)
    (source_id : Int) : Vec3 :=
  let result := getClosestIntersection E scene ray source_id
  let phong : PhongReflection :=
    { ray := ray, scene := scene, material := result.material, intersection := result }
  let shadow := Ray.mk result.point (E.normalize (scene.lightPosition - result.point))
  let _specularComponent := E.Is phong
  let _diffuseComponent := E.Id phong
  let ambientComponent := E.Ia phong
  let lightingColor :=
    if hasIntersection E scene shadow result.id ≠ -1 then ambientComponent else E.I phong
  if result.numberOfIntersections = 0 then Vec3.zero
  else
    let phong1 : PhongReflection :=
      if level < 1 then
        { phong with material := { phong.material with reflectionStrength := Vec3.zero } }
      else phong
    let reflectionColor :=
      if h : level > 0 then
        raytraceSingleRay E scene
          (Ray.mk result.point (E.reflect phong1.ray.direction result.normal))
          (level - 1) result.id
      else E.indeterminate
    lightingColor + reflectionColor * phong1.material.reflectionStrength
termination_by level.toNat
decreasing_by omega

/-- The function `raytraceSingleRay` instrumented: the colour it returns,
computed as in `raytraceSingleRay`, and the length of the chain of nested
recursive calls made to compute it. -/
def raytraceSingleRayNested (E : Env) (scene : Scene) (ray : Ray) (level : Int)
    (source_id : Int) : Vec3 × Nat :=
  let result := getClosestIntersection E scene ray source_id
  let phong : PhongReflection :=
    { ray := ray, scene := scene, material := result.material, intersection := result }
  let shadow := Ray.mk result.point (E.normalize (scene.lightPosition - result.point))
  let _specularComponent := E.Is phong
  let _diffuseComponent := E.Id phong
  let ambientComponent := E.Ia phong
  let lightingColor :=
    if hasIntersection E scene shadow result.id ≠ -1 then ambientComponent else E.I phong
  if result.numberOfIntersections = 0 then (Vec3.zero, 0)
  else
    let phong1 : PhongReflection :=
      if level < 1 then
        { phong with material := { phong.material with reflectionStrength := Vec3.zero } }
      else phong
    let reflected : Vec3 × Nat :=
      if h : level > 0 then
        let inner := raytraceSingleRayNested E scene
          (Ray.mk result.point (E.reflect phong1.ray.direction result.normal))
          (level - 1) result.id
        (inner.1, inner.2 + 1)
      else (E.indeterminate, 0)
    (lightingColor + reflected.1 * phong1.material.reflectionStrength, reflected.2)
termination_by level.toNat
decreasing_by omega

/-! ## Ray generation and the image driver -/

/-- The record `RayAndPixel`. -/
structure RayAndPixel where
  ray : Ray
  x : Int
  y : Int
  deriving DecidableEq

/-- An operation performed on the image buffer. -/
inductive ImageOp where
  | Initialize : ImageOp
  | SetPixel : Int → Int → Vec3 → ImageOp
  deriving DecidableEq

/-- Modelled from the spec: the image buffer of `imagebuffer.h` (not among the
sources) as explicit state: its current size and the operations performed on
it so far, oldest first. -/
structure ImageBuffer where
  Width : Int
  Height : Int
  ops : List ImageOp

/-- Modelled from the spec: `ImageBuffer::Initialize` of `imagebuffer.h` (not
among the sources) resizes the buffer to the current display dimensions. -/
def ImageBuffer.Initialize (E : Env) (image : ImageBuffer) : ImageBuffer :=
  { Width := E.viewportWidth, Height := E.viewportHeight,
    ops := image.ops ++ [ImageOp.Initialize] }

/-- Modelled from the spec: `ImageBuffer::SetPixel` of `imagebuffer.h` (not
among the sources) sets one pixel and leaves the size unchanged. -/
def ImageBuffer.SetPixel (image : ImageBuffer) (x y : Int) (color : Vec3) : ImageBuffer :=
  { image with ops := image.ops ++ [ImageOp.SetPixel x y color] }

/-- The inner loop of `getRaysForViewpoint`, entered with the loop variables
`j`, `y` and the vector `rays` built so far. -/
def innerLoop (image : ImageBuffer) (x : Int) (i : ℚ) (j : ℚ) (y : Int)
    (rays : List RayAndPixel) : List RayAndPixel :=
  if h : y < image.Height then
    let pinhole : Vec3 := ⟨0, 0, 0⟩
    let direction : Vec3 := ⟨i, j, -2⟩
    let r := Ray.mk pinhole direction
    innerLoop image x i (j + 2 / (image.Height : ℚ)) (y + 1) (rays ++ [⟨r, x, y⟩])
  else rays
termination_by (image.Height - y).toNat
decreasing_by omega

/-- The outer loop of `getRaysForViewpoint`, entered with the loop variables
`i`, `x` and the vector `rays` built so far. -/
def outerLoop (image : ImageBuffer) (i : ℚ) (x : Int) (rays : List RayAndPixel) :
    List RayAndPixel :=
  if h : x < image.Width then
    outerLoop image (i + 2 / (image.Width : ℚ)) (x + 1) (innerLoop image x i (-1) 0 rays)
  else rays
termination_by (image.Width - x).toNat
decreasing_by omega

/-- The function `getRaysForViewpoint(scene, image, viewPoint)`. -/
def getRaysForViewpoint (_scene : Scene) (image : ImageBuffer) (_viewPoint : Vec3) :
    List RayAndPixel :=
  outerLoop image (-1) 0 []

/-- The function `raytraceImage(scene, image, viewPoint)`; the result is the
image buffer after the call. -/
def raytraceImage (E : Env) (scene : Scene) (image : ImageBuffer) (viewPoint : Vec3) :
    ImageBuffer :=
  let image1 := image.Initialize E
  let rays := getRaysForViewpoint scene image1 viewPoint
  rays.foldl
    (fun img r =>
      let color := raytraceSingleRay E scene r.ray 10 (-1)
      img.SetPixel r.x r.y color)
    image1

/-! ## Vocabulary of the statements -/

/-- The lighting colour of `raytraceSingleRay` for the nearest hit `result`:
the ambient term when the shadow test reports an occluder, the combined Phong
colour otherwise. -/
def lightingColor (E : Env) (scene : Scene) (ray : Ray) (result : Intersection) : Vec3 :=
  if hasIntersection E scene (shadowRay E scene result) result.id ≠ -1 then
    E.Ia { ray := ray, scene := scene, material := result.material, intersection := result }
  else
    E.I { ray := ray, scene := scene, material := result.material, intersection := result }

/-- A shape that `getClosestIntersection` does not skip and that reports a
nonzero-count intersection with the ray. -/
def reportsHit (ray : Ray) (skipID : Int) (shape : Shape) : Prop :=
  shape.id ≠ skipID ∧ (shape.getIntersection ray).numberOfIntersections ≠ 0

/-- The distance from the hit point a shape reports to the ray origin. -/
def hitDistance (E : Env) (ray : Ray) (shape : Shape) : ℚ :=
  E.distance (shape.getIntersection ray).point ray.origin

/-- The shape `s`, stored after the shapes `pre` and before the shapes `post`,
is the first nearest hit: it reports a hit, strictly nearer than every hit
stored before it and at least as near as every hit stored after it. -/
def FirstNearest (E : Env) (ray : Ray) (skipID : Int) (pre : List Shape) (s : Shape)
    (post : List Shape) : Prop :=
  reportsHit ray skipID s
    ∧ (∀ t ∈ pre, reportsHit ray skipID t → hitDistance E ray s < hitDistance E ray t)
    ∧ (∀ t ∈ post, reportsHit ray skipID t → hitDistance E ray s ≤ hitDistance E ray t)

/-- The nearest-hit contract in the words of the spec: the sentinel when no
shape other than the excluded one reports a hit, and otherwise the
intersection of the first nearest hit. -/
def NearestAsStated (E : Env) (scene : Scene) (ray : Ray) (skipID : Int) : Prop :=
  ((∀ s ∈ scene.shapesInScene, ¬ reportsHit ray skipID s) →
      getClosestIntersection E scene ray skipID = E.sentinel)
    ∧ ((∃ s ∈ scene.shapesInScene, reportsHit ray skipID s) →
      ∃ pre s post, scene.shapesInScene = pre ++ s :: post
        ∧ FirstNearest E ray skipID pre s post
        ∧ getClosestIntersection E scene ray skipID = s.getIntersection ray)

/-- The primary ray of pixel `(x, y)` in an image of width `W` and height `H`. -/
def primaryRay (W H x y : Int) : Ray :=
  Ray.mk ⟨0, 0, 0⟩ ⟨-1 + (x : ℚ) * (2 / (W : ℚ)), -1 + (y : ℚ) * (2 / (H : ℚ)), -2⟩

/-- The pixel coordinates of an entry of `getRaysForViewpoint`. -/
def RayAndPixel.pixel (e : RayAndPixel) : Int × Int := (e.x, e.y)

/-- One entry per pixel of a `W` by `H` image, column after column, each with
the primary ray of its pixel. -/
def pixelRays (W H : Int) : List RayAndPixel :=
  (List.range W.toNat).flatMap fun (a : Nat) =>
    (List.range H.toNat).map fun (b : Nat) =>
      ⟨primaryRay W H (a : Int) (b : Int), (a : Int), (b : Int)⟩

/-! ## A concrete environment and concrete scenes

Exact vector functions, an infinite plane as a shape, and small scenes on the
camera axis. The distance used here is the sum of the coordinate differences;
on two points that differ in one coordinate only, as all points of the scenes
below do, it is the Euclidean distance. -/

/-- The dot product. -/
def Vec3.dot (a b : Vec3) : ℚ := a.x * b.x + a.y * b.y + a.z * b.z

/-- The product of a scalar and a vector. -/
def Vec3.scale (k : ℚ) (a : Vec3) : Vec3 := ⟨k * a.x, k * a.y, k * a.z⟩

/-- The sum of the absolute coordinates; the length of a vector along an axis. -/
def Vec3.axisLength (a : Vec3) : ℚ := |a.x| + |a.y| + |a.z|

/-- The combined colour of the example environment: ambient, plus diffuse
scaled by the clamped cosine to the light, plus specular scaled by the clamped
cosine between the reflected light direction and the view direction. -/
def examplePhong (p : PhongReflection) : Vec3 :=
  let l := Vec3.scale (1 / Vec3.axisLength (p.scene.lightPosition - p.intersection.point))
    (p.scene.lightPosition - p.intersection.point)
  let n := p.intersection.normal
  let r := Vec3.scale (2 * Vec3.dot n l) n - l
  let v := Vec3.scale (1 / Vec3.axisLength (p.ray.origin - p.intersection.point))
    (p.ray.origin - p.intersection.point)
  p.material.ambient + Vec3.scale (max 0 (Vec3.dot n l)) p.material.diffuse
    + Vec3.scale (max 0 (Vec3.dot r v)) p.material.specular

/-- A concrete environment. -/
def exampleEnv : Env where
  distance := fun a b => Vec3.axisLength (a - b)
  normalize := fun v => Vec3.scale (1 / Vec3.axisLength v) v
  reflect := fun i n => i - Vec3.scale (2 * Vec3.dot n i) n
  Is := fun p => examplePhong { p with material := { p.material with
    ambient := Vec3.zero, diffuse := Vec3.zero } }
  Id := fun p => examplePhong { p with material := { p.material with
    ambient := Vec3.zero, specular := Vec3.zero } }
  Ia := fun p => p.material.ambient
  I := examplePhong
  undefinedIntersection := ⟨7, ⟨1, 2, 3⟩, ⟨4, 5, 6⟩, ⟨⟨1, 1, 1⟩, ⟨1, 1, 1⟩, ⟨1, 1, 1⟩, 1, ⟨1, 1, 1⟩⟩, 9⟩
  indeterminate := ⟨11, 12, 13⟩
  viewportWidth := 2
  viewportHeight := 2

/-- The infinite plane through `p0` with normal `n`: it is hit where the ray
meets it at a positive parameter; `miss` is what it returns otherwise, with the
count set to zero. -/
def plane (id : Int) (p0 n : Vec3) (m : Material) (miss : Intersection) : Shape where
  id := id
  getIntersection := fun ray =>
    if Vec3.dot ray.direction n ≠ 0
        ∧ Vec3.dot (p0 - ray.origin) n / Vec3.dot ray.direction n > 0 then
      ⟨1, ray.origin + Vec3.scale (Vec3.dot (p0 - ray.origin) n / Vec3.dot ray.direction n)
            ray.direction, n, m, id⟩
    else { miss with numberOfIntersections := 0 }

/-- A grey material that reflects half of the incoming colour. -/
def mirror : Material :=
  ⟨⟨1/10, 1/10, 1/10⟩, ⟨1/2, 1/2, 1/2⟩, ⟨1/4, 1/4, 1/4⟩, 1, ⟨1/2, 1/2, 1/2⟩⟩

/-- An intersection record with every field zero. -/
def blank : Intersection :=
  ⟨0, Vec3.zero, Vec3.zero, ⟨Vec3.zero, Vec3.zero, Vec3.zero, 0, Vec3.zero⟩, 0⟩

/-- The ray from the pinhole down the camera axis. -/
def axisRay : Ray := ⟨⟨0, 0, 0⟩, ⟨0, 0, -1⟩⟩

/-- Two mirrors facing each other across the camera, at `z = -5` (id 1) and
`z = 5` (id 2), lit from `(0, 0, 3)`. -/
def mirrorScene : Scene where
  shapesInScene :=
    [plane 1 ⟨0, 0, -5⟩ ⟨0, 0, 1⟩ mirror blank, plane 2 ⟨0, 0, 5⟩ ⟨0, 0, -1⟩ mirror blank]
  lightPosition := ⟨0, 0, 3⟩

/-- One plane in front of the camera whose hit point is `FLT_MAX` away. -/
def farScene : Scene where
  shapesInScene := [plane 1 ⟨0, 0, -FLT_MAX⟩ ⟨0, 0, 1⟩ mirror blank]
  lightPosition := ⟨0, 0, 3⟩

/-- Three planes in front of the camera, at `z = -5` (id 1), `z = -8` (id 2)
and `z = -8` again (id 3), lit from `(0, 0, 3)`. -/
def stackedScene : Scene where
  shapesInScene :=
    [plane 1 ⟨0, 0, -5⟩ ⟨0, 0, 1⟩ mirror blank, plane 2 ⟨0, 0, -8⟩ ⟨0, 0, 1⟩ mirror blank,
     plane 3 ⟨0, 0, -8⟩ ⟨0, 0, 1⟩ mirror blank]
  lightPosition := ⟨0, 0, 3⟩

/-- An image buffer two pixels wide and three pixels high, before any operation. -/
def smallImage : ImageBuffer := ⟨2, 3, []⟩

/-! ## Lemmas -/

theorem Vec3.sub_def (a b : Vec3) : a - b = ⟨a.x - b.x, a.y - b.y, a.z - b.z⟩ := rfl

theorem Vec3.add_def (a b : Vec3) : a + b = ⟨a.x + b.x, a.y + b.y, a.z + b.z⟩ := rfl

theorem Vec3.mul_def (a b : Vec3) : a * b = ⟨a.x * b.x, a.y * b.y, a.z * b.z⟩ := rfl

theorem Vec3.mul_zero_right (a : Vec3) : a * Vec3.zero = Vec3.zero := by
  simp [Vec3.mul_def, Vec3.zero]

theorem Vec3.add_zero_right (a : Vec3) : a + Vec3.zero = a := by
  simp [Vec3.add_def, Vec3.zero]

/-- The loop of `getClosestIntersection`, started in the state `st`, either
leaves the state as it is, and then no hit of the list is nearer than
`st.1`, or ends on the first nearest hit of the list, which is nearer than
`st.1`. -/
theorem closest_fold (E : Env) (ray : Ray) (skipID : Int) (l : List Shape) :
    ∀ st : ℚ × Intersection,
      ((∀ s ∈ l, reportsHit ray skipID s → st.1 ≤ hitDistance E ray s)
          ∧ l.foldl (closestStep E ray skipID) st = st)
        ∨ ∃ pre s post, l = pre ++ s :: post ∧ FirstNearest E ray skipID pre s post
            ∧ hitDistance E ray s < st.1
            ∧ l.foldl (closestStep E ray skipID) st
                = (hitDistance E ray s, s.getIntersection ray) := by
  induction l with
  | nil => intro st; left; simp
  | cons a l ih =>
    intro st
    rw [List.foldl_cons]
    by_cases hstep : reportsHit ray skipID a ∧ hitDistance E ray a < st.1
    · have hst : closestStep E ray skipID st a
          = (hitDistance E ray a, a.getIntersection ray) := by
        have h1 : ¬ skipID = a.id := fun h => hstep.1.1 h.symm
        have h2 := hstep.1.2
        have h3 := hstep.2
        unfold hitDistance at h3
        simp [closestStep, h1, h2, h3, hitDistance]
      rw [hst]
      right
      rcases ih (hitDistance E ray a, a.getIntersection ray) with
        ⟨hall, hfold⟩ | ⟨pre, s, post, hl, hfn, hlt, hfold⟩
      · exact ⟨[], a, l, rfl, ⟨hstep.1, by simp, hall⟩, hstep.2, hfold⟩
      · refine ⟨a :: pre, s, post, by simp [hl], ⟨hfn.1, ?_, hfn.2.2⟩,
          lt_trans hlt hstep.2, hfold⟩
        intro t ht hrep
        rcases List.mem_cons.1 ht with rfl | ht
        · exact hlt
        · exact hfn.2.1 t ht hrep
    · have hst : closestStep E ray skipID st a = st := by
        unfold closestStep
        by_cases h1 : skipID = a.id
        · simp [h1]
        · simp only [h1, if_false]
          by_cases h2 : (a.getIntersection ray).numberOfIntersections ≠ 0
              ∧ E.distance (a.getIntersection ray).point ray.origin < st.1
          · exact absurd ⟨⟨fun h => h1 h.symm, h2.1⟩, h2.2⟩ hstep
          · simp only [h2, if_false]
      rw [hst]
      have ha : reportsHit ray skipID a → st.1 ≤ hitDistance E ray a := by
        intro hrep
        by_contra hlt
        exact hstep ⟨hrep, lt_of_not_le hlt⟩
      rcases ih st with ⟨hall, hfold⟩ | ⟨pre, s, post, hl, hfn, hlt, hfold⟩
      · left
        refine ⟨?_, hfold⟩
        intro s hs hrep
        rcases List.mem_cons.1 hs with rfl | hs
        · exact ha hrep
        · exact hall s hs hrep
      · right
        refine ⟨a :: pre, s, post, by simp [hl], ⟨hfn.1, ?_, hfn.2.2⟩, hlt, hfold⟩
        intro t ht hrep
        rcases List.mem_cons.1 ht with rfl | ht
        · exact lt_of_lt_of_le hlt (ha hrep)
        · exact hfn.2.1 t ht hrep

/-- The result of `getClosestIntersection` is the sentinel, and then no hit is
nearer than `FLT_MAX`, or it is the first nearest hit, nearer than `FLT_MAX`. -/
theorem closest_cases (E : Env) (scene : Scene) (ray : Ray) (skipID : Int) :
    ((∀ s ∈ scene.shapesInScene, reportsHit ray skipID s → FLT_MAX ≤ hitDistance E ray s)
        ∧ getClosestIntersection E scene ray skipID = E.sentinel)
      ∨ ∃ pre s post, scene.shapesInScene = pre ++ s :: post
          ∧ FirstNearest E ray skipID pre s post
          ∧ hitDistance E ray s < FLT_MAX
          ∧ getClosestIntersection E scene ray skipID = s.getIntersection ray := by
  unfold getClosestIntersection
  rcases closest_fold E ray skipID scene.shapesInScene (FLT_MAX, E.sentinel) with
    ⟨hall, hfold⟩ | ⟨pre, s, post, hl, hfn, hlt, hfold⟩
  · left
    exact ⟨hall, by rw [hfold]⟩
  · right
    exact ⟨pre, s, post, hl, hfn, hlt, by rw [hfold]⟩

/-- A call of `raytraceSingleRay` whose nearest hit has count zero. -/
theorem raytrace_of_miss (E : Env) (scene : Scene) (ray : Ray) (level source_id : Int)
    (h : (getClosestIntersection E scene ray source_id).numberOfIntersections = 0) :
    raytraceSingleRay E scene ray level source_id = Vec3.zero := by
  rw [raytraceSingleRay]
  simp only [h, if_true]

/-- A call of `raytraceSingleRay` with a hit and a positive level. -/
theorem raytrace_of_hit_pos (E : Env) (scene : Scene) (ray : Ray) (level source_id : Int)
    (hlevel : level > 0)
    (hhit : (getClosestIntersection E scene ray source_id).numberOfIntersections ≠ 0) :
    raytraceSingleRay E scene ray level source_id
      = lightingColor E scene ray (getClosestIntersection E scene ray source_id)
        + raytraceSingleRay E scene
            (reflectionRay E ray (getClosestIntersection E scene ray source_id))
            (level - 1) (getClosestIntersection E scene ray source_id).id
          * (getClosestIntersection E scene ray source_id).material.reflectionStrength := by
  rw [raytraceSingleRay]
  have h1 : ¬ level < 1 := by omega
  simp only [hhit, hlevel, h1, if_false, dif_pos, lightingColor, shadowRay, reflectionRay]

/-- A call of `raytraceSingleRay` with a hit and no level left. -/
theorem raytrace_of_hit_nonpos (E : Env) (scene : Scene) (ray : Ray) (level source_id : Int)
    (hlevel : level ≤ 0)
    (hhit : (getClosestIntersection E scene ray source_id).numberOfIntersections ≠ 0) :
    raytraceSingleRay E scene ray level source_id
      = lightingColor E scene ray (getClosestIntersection E scene ray source_id) := by
  rw [raytraceSingleRay]
  have h1 : level < 1 := by omega
  have h2 : ¬ level > 0 := by omega
  simp only [hhit, h1, h2, if_false, if_true, dif_neg, not_false_eq_true, lightingColor,
    shadowRay, Vec3.mul_zero_right, Vec3.add_zero_right]

/-- The instrumented tracer on a miss. -/
theorem nested_of_miss (E : Env) (scene : Scene) (ray : Ray) (level source_id : Int)
    (h : (getClosestIntersection E scene ray source_id).numberOfIntersections = 0) :
    raytraceSingleRayNested E scene ray level source_id = (Vec3.zero, 0) := by
  rw [raytraceSingleRayNested]
  simp only [h, if_true]

/-- The instrumented tracer with a hit and a positive level. -/
theorem nested_of_hit_pos (E : Env) (scene : Scene) (ray : Ray) (level source_id : Int)
    (hlevel : level > 0)
    (hhit : (getClosestIntersection E scene ray source_id).numberOfIntersections ≠ 0) :
    raytraceSingleRayNested E scene ray level source_id
      = (lightingColor E scene ray (getClosestIntersection E scene ray source_id)
          + (raytraceSingleRayNested E scene
              (reflectionRay E ray (getClosestIntersection E scene ray source_id))
              (level - 1) (getClosestIntersection E scene ray source_id).id).1
            * (getClosestIntersection E scene ray source_id).material.reflectionStrength,
         (raytraceSingleRayNested E scene
              (reflectionRay E ray (getClosestIntersection E scene ray source_id))
              (level - 1) (getClosestIntersection E scene ray source_id).id).2 + 1) := by
  rw [raytraceSingleRayNested]
  have h1 : ¬ level < 1 := by omega
  simp only [hhit, hlevel, h1, if_false, dif_pos, lightingColor, shadowRay, reflectionRay]

/-- The instrumented tracer with a hit and no level left. -/
theorem nested_of_hit_nonpos (E : Env) (scene : Scene) (ray : Ray) (level source_id : Int)
    (hlevel : level ≤ 0)
    (hhit : (getClosestIntersection E scene ray source_id).numberOfIntersections ≠ 0) :
    raytraceSingleRayNested E scene ray level source_id
      = (lightingColor E scene ray (getClosestIntersection E scene ray source_id), 0) := by
  rw [raytraceSingleRayNested]
  have h1 : level < 1 := by omega
  have h2 : ¬ level > 0 := by omega
  simp only [hhit, h1, h2, if_false, if_true, dif_neg, not_false_eq_true, lightingColor,
    shadowRay, Vec3.mul_zero_right, Vec3.add_zero_right]

/-- The instrumented tracer computes the colour of `raytraceSingleRay` and
nests at most `level` deep. -/
theorem nested_spec (E : Env) (scene : Scene) (n : Nat) :
    ∀ (ray : Ray) (level source_id : Int), level.toNat ≤ n →
      (raytraceSingleRayNested E scene ray level source_id).1
          = raytraceSingleRay E scene ray level source_id
        ∧ (raytraceSingleRayNested E scene ray level source_id).2 ≤ level.toNat := by
  induction n with
  | zero =>
    intro ray level source_id hn
    have hlevel : level ≤ 0 := by omega
    by_cases hhit : (getClosestIntersection E scene ray source_id).numberOfIntersections = 0
    · rw [nested_of_miss E scene ray level source_id hhit,
        raytrace_of_miss E scene ray level source_id hhit]
      exact ⟨rfl, Nat.zero_le _⟩
    · rw [nested_of_hit_nonpos E scene ray level source_id hlevel hhit,
        raytrace_of_hit_nonpos E scene ray level source_id hlevel hhit]
      exact ⟨rfl, Nat.zero_le _⟩
  | succ n ih =>
    intro ray level source_id hn
    by_cases hhit : (getClosestIntersection E scene ray source_id).numberOfIntersections = 0
    · rw [nested_of_miss E scene ray level source_id hhit,
        raytrace_of_miss E scene ray level source_id hhit]
      exact ⟨rfl, Nat.zero_le _⟩
    · by_cases hlevel : level > 0
      · rw [nested_of_hit_pos E scene ray level source_id hlevel hhit,
          raytrace_of_hit_pos E scene ray level source_id hlevel hhit]
        have hrec := ih (reflectionRay E ray (getClosestIntersection E scene ray source_id))
          (level - 1) (getClosestIntersection E scene ray source_id).id (by omega)
        refine ⟨?_, ?_⟩
        · show _ + _ * _ = _
          rw [hrec.1]
        · show _ + 1 ≤ _
          have := hrec.2
          omega
      · have hlevel0 : level ≤ 0 := by omega
        rw [nested_of_hit_nonpos E scene ray level source_id hlevel0 hhit,
          raytrace_of_hit_nonpos E scene ray level source_id hlevel0 hhit]
        exact ⟨rfl, Nat.zero_le _⟩

/-- On the camera axis the nearest hit of `mirrorScene` is the mirror at `z = -5`. -/
theorem mirrorScene_nearest :
    getClosestIntersection exampleEnv mirrorScene axisRay (-1)
      = ⟨1, ⟨0, 0, -5⟩, ⟨0, 0, 1⟩, mirror, 1⟩ := by
  simp [getClosestIntersection, mirrorScene, closestStep, plane, axisRay, exampleEnv,
    Vec3.dot, Vec3.scale, Vec3.axisLength, Vec3.sub_def, Vec3.add_def, FLT_MAX]
  norm_num

/-- With the mirror at `z = -5` excluded, the nearest hit of `mirrorScene` for
a ray leaving that mirror is the mirror at `z = 5`, although the excluded
mirror is where the ray starts. -/
theorem mirrorScene_nearest_back :
    getClosestIntersection exampleEnv mirrorScene ⟨⟨0, 0, -5⟩, ⟨0, 0, 1⟩⟩ 1
      = ⟨1, ⟨0, 0, 5⟩, ⟨0, 0, -1⟩, mirror, 2⟩ := by
  simp [getClosestIntersection, mirrorScene, closestStep, plane, exampleEnv,
    Vec3.dot, Vec3.scale, Vec3.axisLength, Vec3.sub_def, Vec3.add_def, FLT_MAX]
  norm_num

/-- With the plane at `z = -5` excluded, the nearest hit of `stackedScene` on
the camera axis is that of plane 2, the first stored of the two planes at
`z = -8`, which are equally near. -/
theorem stackedScene_nearest_skip :
    getClosestIntersection exampleEnv stackedScene axisRay 1
      = ⟨1, ⟨0, 0, -8⟩, ⟨0, 0, 1⟩, mirror, 2⟩ := by
  simp [getClosestIntersection, stackedScene, closestStep, plane, axisRay, exampleEnv,
    Vec3.dot, Vec3.scale, Vec3.axisLength, Vec3.sub_def, Vec3.add_def, FLT_MAX]
  norm_num

/-- The first planes of `mirrorScene` and `mirrorSceneOther` return different
intersections for a ray parallel to them. -/
theorem mirrorScenes_differ :
    (plane 1 ⟨0, 0, -5⟩ ⟨0, 0, 1⟩ mirror blank).getIntersection ⟨⟨0, 0, 0⟩, ⟨1, 0, 0⟩⟩
      ≠ (plane 1 ⟨0, 0, -5⟩ ⟨0, 0, 1⟩ mirror exampleEnv.undefinedIntersection).getIntersection
          ⟨⟨0, 0, 0⟩, ⟨1, 0, 0⟩⟩ := by
  simp [plane, Vec3.dot, blank, exampleEnv]

/-- The plane of `farScene` reports a hit on the camera axis. -/
theorem farScene_reports :
    reportsHit axisRay (-1) (plane 1 ⟨0, 0, -FLT_MAX⟩ ⟨0, 0, 1⟩ mirror blank) := by
  simp [reportsHit, plane, axisRay, Vec3.dot, Vec3.sub_def, FLT_MAX]

/-- The nearest hit of `farScene` on the camera axis is the sentinel. -/
theorem farScene_nearest :
    getClosestIntersection exampleEnv farScene axisRay (-1) = exampleEnv.sentinel := by
  simp [getClosestIntersection, farScene, closestStep, plane, axisRay, exampleEnv,
    Vec3.dot, Vec3.scale, Vec3.axisLength, Vec3.sub_def, Vec3.add_def, FLT_MAX]

/-- The inner loop of `getRaysForViewpoint` appends one entry for each row
from `y` up to the height, stepping `j` by `2 / Height`. -/
theorem innerLoop_eq (image : ImageBuffer) (x : Int) (i : ℚ) (n : Nat) :
    ∀ (j : ℚ) (y : Int) (rays : List RayAndPixel), (image.Height - y).toNat = n →
      innerLoop image x i j y rays
        = rays ++ (List.range n).map fun k =>
            ⟨Ray.mk ⟨0, 0, 0⟩ ⟨i, j + (k : ℚ) * (2 / (image.Height : ℚ)), -2⟩, x, y + k⟩ := by
  induction n with
  | zero =>
    intro j y rays hn
    rw [innerLoop]
    have hy : ¬ y < image.Height := by omega
    simp [hy]
  | succ n ih =>
    intro j y rays hn
    rw [innerLoop]
    have hy : y < image.Height := by omega
    simp only [hy, dif_pos]
    rw [ih _ (y + 1) _ (by omega), List.range_succ_eq_map, List.map_cons, List.map_map,
      List.append_assoc, List.singleton_append]
    congr 2
    · simp
    · apply List.map_congr_left
      intro k _
      have h1 : j + 2 / (image.Height : ℚ) + (k : ℚ) * (2 / (image.Height : ℚ))
          = j + ((k : ℚ) + 1) * (2 / (image.Height : ℚ)) := by ring
      have h2 : y + 1 + (k : Int) = y + ((k : Int) + 1) := by ring
      simp only [Function.comp, Nat.succ_eq_add_one, Nat.cast_add, Nat.cast_one, h1, h2]

/-- The outer loop of `getRaysForViewpoint` appends the entries of one column
for each column from `x` up to the width, stepping `i` by `2 / Width`. -/
theorem outerLoop_eq (image : ImageBuffer) (n : Nat) :
    ∀ (i : ℚ) (x : Int) (rays : List RayAndPixel), (image.Width - x).toNat = n →
      outerLoop image i x rays
        = rays ++ (List.range n).flatMap fun a =>
            (List.range image.Height.toNat).map fun b =>
              ⟨Ray.mk ⟨0, 0, 0⟩ ⟨i + (a : ℚ) * (2 / (image.Width : ℚ)),
                -1 + (b : ℚ) * (2 / (image.Height : ℚ)), -2⟩, x + a, (b : Int)⟩ := by
  induction n with
  | zero =>
    intro i x rays hn
    rw [outerLoop]
    have hx : ¬ x < image.Width := by omega
    simp [hx]
  | succ n ih =>
    intro i x rays hn
    rw [outerLoop]
    have hx : x < image.Width := by omega
    simp only [hx, dif_pos]
    rw [ih _ (x + 1) _ (by omega), innerLoop_eq image x i image.Height.toNat (-1) 0 rays (by simp),
      List.range_succ_eq_map, List.flatMap_cons, List.flatMap_map, List.append_assoc]
    congr 2
    · apply List.map_congr_left
      intro k _
      simp
    · apply List.flatMap_congr
      intro a _
      apply List.map_congr_left
      intro b _
      have h1 : i + 2 / (image.Width : ℚ) + (a : ℚ) * (2 / (image.Width : ℚ))
          = i + ((a : ℚ) + 1) * (2 / (image.Width : ℚ)) := by ring
      have h2 : x + 1 + (a : Int) = x + ((a : Int) + 1) := by ring
      simp only [Nat.succ_eq_add_one, Nat.cast_add, Nat.cast_one, h1, h2]

/-- The function `getRaysForViewpoint` returns the entries of `pixelRays`. -/
theorem getRaysForViewpoint_eq (scene : Scene) (image : ImageBuffer) (viewPoint : Vec3) :
    getRaysForViewpoint scene image viewPoint = pixelRays image.Width image.Height := by
  unfold getRaysForViewpoint pixelRays
  rw [outerLoop_eq image image.Width.toNat (-1) 0 [] (by simp), List.nil_append]
  apply List.flatMap_congr
  intro a _
  apply List.map_congr_left
  intro b _
  simp [primaryRay]


theorem length_flatMap_const {α β : Type} (l : List α) (f : α → List β) (k : Nat)
    (h : ∀ a, (f a).length = k) : (l.flatMap f).length = l.length * k := by
  induction l with
  | nil => simp
  | cons a l ih => simp [List.flatMap_cons, ih, h, Nat.succ_mul, Nat.add_comm]

theorem pixelRays_length (W H : Int) : (pixelRays W H).length = W.toNat * H.toNat := by
  unfold pixelRays
  rw [length_flatMap_const _ _ H.toNat (fun a => by simp), List.length_range]

theorem mem_pixelRays (W H : Int) (e : RayAndPixel) :
    e ∈ pixelRays W H ↔ 0 ≤ e.x ∧ e.x < W ∧ 0 ≤ e.y ∧ e.y < H
      ∧ e.ray = primaryRay W H e.x e.y := by
  unfold pixelRays
  simp only [List.mem_flatMap, List.mem_map, List.mem_range]
  constructor
  · rintro ⟨a, ha, b, hb, rfl⟩
    refine ⟨?_, ?_, ?_, ?_, rfl⟩ <;> simp only <;> omega
  · rintro ⟨hx0, hxW, hy0, hyH, hray⟩
    refine ⟨e.x.toNat, by omega, e.y.toNat, by omega, ?_⟩
    have hx : ((e.x.toNat : Nat) : Int) = e.x := Int.toNat_of_nonneg hx0
    have hy : ((e.y.toNat : Nat) : Int) = e.y := Int.toNat_of_nonneg hy0
    rw [hx, hy, ← hray]

theorem pixelRays_pixels (W H : Int) :
    (pixelRays W H).map RayAndPixel.pixel
      = (List.range W.toNat).flatMap fun (a : Nat) =>
          (List.range H.toNat).map fun (b : Nat) => ((a : Int), (b : Int)) := by
  unfold pixelRays
  rw [List.map_flatMap]
  apply List.flatMap_congr
  intro a _
  rw [List.map_map]
  apply List.map_congr_left
  intro b _
  rfl

theorem pixelRays_nodup (W H : Int) : ((pixelRays W H).map RayAndPixel.pixel).Nodup := by
  rw [pixelRays_pixels, List.nodup_flatMap]
  refine ⟨?_, ?_⟩
  · intro a _
    apply List.Nodup.map _ (List.nodup_range _)
    intro b c hbc
    simpa using hbc
  · apply List.Pairwise.imp _ (List.nodup_range W.toNat)
    intro a c hac p hp1 hp2
    simp only [List.mem_map, List.mem_range] at hp1 hp2
    obtain ⟨b, _, rfl⟩ := hp1
    obtain ⟨d, _, hd⟩ := hp2
    apply hac
    have := (Prod.mk.inj hd).1
    omega

theorem mem_pixelRays_pixels (W H x y : Int) :
    (x, y) ∈ (pixelRays W H).map RayAndPixel.pixel ↔ 0 ≤ x ∧ x < W ∧ 0 ≤ y ∧ y < H := by
  rw [List.mem_map]
  constructor
  · rintro ⟨e, he, hxy⟩
    obtain ⟨h1, h2, h3, h4, _⟩ := (mem_pixelRays W H e).1 he
    have hx : e.x = x := (Prod.mk.inj hxy).1
    have hy : e.y = y := (Prod.mk.inj hxy).2
    rw [← hx, ← hy]
    exact ⟨h1, h2, h3, h4⟩
  · rintro ⟨hx0, hxW, hy0, hyH⟩
    exact ⟨⟨primaryRay W H x y, x, y⟩, (mem_pixelRays W H _).2 ⟨hx0, hxW, hy0, hyH, rfl⟩, rfl⟩

/-- The normalised device coordinate of column `x` of `W` lies in `[-1, 1)`. -/
theorem coordinate_bounds (W x : Int) (hx0 : 0 ≤ x) (hxW : x < W) :
    -1 ≤ -1 + (x : ℚ) * (2 / (W : ℚ)) ∧ -1 + (x : ℚ) * (2 / (W : ℚ)) < 1 := by
  have hW : (0 : ℚ) < (W : ℚ) := by exact_mod_cast (lt_of_le_of_lt hx0 hxW)
  have hx : (0 : ℚ) ≤ (x : ℚ) := by exact_mod_cast hx0
  have hlt : (x : ℚ) < (W : ℚ) := by exact_mod_cast hxW
  have h2 : (x : ℚ) * (2 / (W : ℚ)) = 2 * ((x : ℚ) / (W : ℚ)) := by ring
  have h3 : (x : ℚ) / (W : ℚ) < 1 := (div_lt_one hW).2 hlt
  have h4 : 0 ≤ (x : ℚ) / (W : ℚ) := div_nonneg hx (le_of_lt hW)
  rw [h2]
  constructor <;> linarith

/-- The loop of `raytraceImage` appends one `SetPixel` for each entry. -/
theorem setPixel_fold (f : RayAndPixel → Vec3) (l : List RayAndPixel) :
    ∀ img : ImageBuffer,
      l.foldl (fun img r => img.SetPixel r.x r.y (f r)) img
        = { img with ops := img.ops ++ l.map fun r => ImageOp.SetPixel r.x r.y (f r) } := by
  induction l with
  | nil => intro img; simp
  | cons r l ih =>
    intro img
    rw [List.foldl_cons, ih]
    simp [ImageBuffer.SetPixel]

/-- With the mirror at `z = 5` excluded, the nearest hit of `mirrorScene` for
a ray leaving that mirror toward the other is the mirror at `z = -5`. -/
theorem mirrorScene_nearest_forth :
    getClosestIntersection exampleEnv mirrorScene ⟨⟨0, 0, 5⟩, ⟨0, 0, -1⟩⟩ 2
      = ⟨1, ⟨0, 0, -5⟩, ⟨0, 0, 1⟩, mirror, 1⟩ := by
  simp [getClosestIntersection, mirrorScene, closestStep, plane, exampleEnv,
    Vec3.dot, Vec3.scale, Vec3.axisLength, Vec3.sub_def, Vec3.add_def, FLT_MAX]
  norm_num

theorem mirror_reflection_back :
    reflectionRay exampleEnv ⟨⟨0, 0, -5⟩, ⟨0, 0, 1⟩⟩ ⟨1, ⟨0, 0, 5⟩, ⟨0, 0, -1⟩, mirror, 2⟩
      = ⟨⟨0, 0, 5⟩, ⟨0, 0, -1⟩⟩ := by
  simp [reflectionRay, exampleEnv, Vec3.dot, Vec3.scale, Vec3.sub_def]
  norm_num

theorem mirror_reflection_forth :
    reflectionRay exampleEnv ⟨⟨0, 0, 5⟩, ⟨0, 0, -1⟩⟩ ⟨1, ⟨0, 0, -5⟩, ⟨0, 0, 1⟩, mirror, 1⟩
      = ⟨⟨0, 0, -5⟩, ⟨0, 0, 1⟩⟩ := by
  simp [reflectionRay, exampleEnv, Vec3.dot, Vec3.scale, Vec3.sub_def]
  norm_num

theorem mirror_reflection_first :
    reflectionRay exampleEnv axisRay ⟨1, ⟨0, 0, -5⟩, ⟨0, 0, 1⟩, mirror, 1⟩
      = ⟨⟨0, 0, -5⟩, ⟨0, 0, 1⟩⟩ := by
  simp [reflectionRay, exampleEnv, axisRay, Vec3.dot, Vec3.scale, Vec3.sub_def]
  norm_num

/-- Between the two mirrors of `mirrorScene` every reflected ray hits the
mirror opposite: a ray leaving either mirror nests exactly as deep as its
level allows. -/
theorem mirrorScene_bounces (n : Nat) :
    (raytraceSingleRayNested exampleEnv mirrorScene ⟨⟨0, 0, -5⟩, ⟨0, 0, 1⟩⟩ n 1).2 = n
      ∧ (raytraceSingleRayNested exampleEnv mirrorScene ⟨⟨0, 0, 5⟩, ⟨0, 0, -1⟩⟩ n 2).2 = n := by
  induction n with
  | zero =>
    constructor
    · rw [nested_of_hit_nonpos _ _ _ _ _ (by simp) (by rw [mirrorScene_nearest_back]; decide)]
    · rw [nested_of_hit_nonpos _ _ _ _ _ (by simp) (by rw [mirrorScene_nearest_forth]; decide)]
  | succ n ih =>
    have hpos : ((n + 1 : Nat) : Int) > 0 := by omega
    have hpred : ((n + 1 : Nat) : Int) - 1 = (n : Int) := by omega
    constructor
    · rw [nested_of_hit_pos _ _ _ _ _ hpos (by rw [mirrorScene_nearest_back]; decide),
        mirrorScene_nearest_back, mirror_reflection_back, hpred]
      simp [ih.2]
    · rw [nested_of_hit_pos _ _ _ _ _ hpos (by rw [mirrorScene_nearest_forth]; decide),
        mirrorScene_nearest_forth, mirror_reflection_forth, hpred]
      simp [ih.1]

/-- On the camera axis of `mirrorScene` the chain of nested calls from level 10
has length exactly 10: the bound of the budget is attained. -/
theorem mirrorScene_nests_ten :
    (raytraceSingleRayNested exampleEnv mirrorScene axisRay 10 (-1)).2 = 10 := by
  rw [nested_of_hit_pos _ _ _ _ _ (by decide) (by rw [mirrorScene_nearest]; decide),
    mirrorScene_nearest, mirror_reflection_first]
  have h := (mirrorScene_bounces 9).1
  simp only [Nat.cast_ofNat] at h
  have h9 : (10 : Int) - 1 = 9 := by decide
  rw [h9, h]

/-! ## The recursive tracer: hit, exhausted budget, miss, termination -/

/-- C1. With a positive level and a nearest hit `hit` of nonzero count,
`raytraceSingleRay` returns the lighting colour (the ambient term when the
shadow test from the hit point reports an occluder, the combined Phong colour
otherwise) plus the colour traced along the reflected ray, with `level - 1`
and the hit shape excluded, times the reflection strength of the hit
material, componentwise. -/
theorem raytraceSingleRay_reflects (E : Env) (scene : Scene) (ray : Ray)
    (level source_id : Int) (hit : Intersection)
    (hnearest : getClosestIntersection E scene ray source_id = hit)
    (hlevel : level > 0) (hcount : hit.numberOfIntersections ≠ 0) :
    raytraceSingleRay E scene ray level source_id
      = (if hasIntersection E scene
              (Ray.mk hit.point (E.normalize (scene.lightPosition - hit.point))) hit.id ≠ -1
          then E.Ia ⟨ray, scene, hit.material, hit⟩
          else E.I ⟨ray, scene, hit.material, hit⟩)
        + raytraceSingleRay E scene (Ray.mk hit.point (E.reflect ray.direction hit.normal))
            (level - 1) hit.id
          * hit.material.reflectionStrength := by
  subst hnearest
  exact raytrace_of_hit_pos E scene ray level source_id hlevel hcount

/-- Witness of C1: the camera-axis ray in `mirrorScene` at level 10. -/
theorem raytraceSingleRay_reflects_witness :
    getClosestIntersection exampleEnv mirrorScene axisRay (-1)
        = ⟨1, ⟨0, 0, -5⟩, ⟨0, 0, 1⟩, mirror, 1⟩
      ∧ (10 : Int) > 0
      ∧ raytraceSingleRay exampleEnv mirrorScene axisRay 10 (-1)
        = (if hasIntersection exampleEnv mirrorScene
                (Ray.mk ⟨0, 0, -5⟩
                  (exampleEnv.normalize (mirrorScene.lightPosition - ⟨0, 0, -5⟩))) 1 ≠ -1
            then exampleEnv.Ia ⟨axisRay, mirrorScene, mirror, ⟨1, ⟨0, 0, -5⟩, ⟨0, 0, 1⟩, mirror, 1⟩⟩
            else exampleEnv.I ⟨axisRay, mirrorScene, mirror, ⟨1, ⟨0, 0, -5⟩, ⟨0, 0, 1⟩, mirror, 1⟩⟩)
          + raytraceSingleRay exampleEnv mirrorScene
              (Ray.mk ⟨0, 0, -5⟩ (exampleEnv.reflect axisRay.direction ⟨0, 0, 1⟩)) (10 - 1) 1
            * mirror.reflectionStrength :=
  ⟨mirrorScene_nearest, by decide,
    raytraceSingleRay_reflects exampleEnv mirrorScene axisRay 10 (-1)
      ⟨1, ⟨0, 0, -5⟩, ⟨0, 0, 1⟩, mirror, 1⟩ mirrorScene_nearest (by decide) (by decide)⟩

/-- C3. When no shape other than the excluded one reports a nonzero-count
intersection with the ray, `raytraceSingleRay` returns exactly black, at every
level, positive, zero or negative. -/
theorem raytraceSingleRay_miss_black (E : Env) (scene : Scene) (ray : Ray)
    (level source_id : Int)
    (hmiss : ∀ s ∈ scene.shapesInScene, s.id ≠ source_id →
      (s.getIntersection ray).numberOfIntersections = 0) :
    raytraceSingleRay E scene ray level source_id = ⟨0, 0, 0⟩ := by
  apply raytrace_of_miss
  rcases closest_cases E scene ray source_id with
    ⟨_, hres⟩ | ⟨pre, s, post, hl, hfn, _, _⟩
  · rw [hres]; rfl
  · exact absurd (hmiss s (by simp [hl]) hfn.1.1) hfn.1.2

/-- Witness of C3: a ray parallel to both mirrors of `mirrorScene`, at level 10. -/
theorem raytraceSingleRay_miss_black_witness :
    (∀ s ∈ mirrorScene.shapesInScene, s.id ≠ -1 →
        (s.getIntersection ⟨⟨0, 0, 0⟩, ⟨1, 0, 0⟩⟩).numberOfIntersections = 0)
      ∧ raytraceSingleRay exampleEnv mirrorScene ⟨⟨0, 0, 0⟩, ⟨1, 0, 0⟩⟩ 10 (-1) = ⟨0, 0, 0⟩ :=
  ⟨by simp [mirrorScene, plane, Vec3.dot],
    raytraceSingleRay_miss_black exampleEnv mirrorScene ⟨⟨0, 0, 0⟩, ⟨1, 0, 0⟩⟩ 10 (-1)
      (by simp [mirrorScene, plane, Vec3.dot])⟩

/-- C4. For every scene, ray and level, `raytraceSingleRay` is a total
function, the instrumented tracer returns its colour, and the chain of nested
recursive calls has length at most `max level 0`; from level 10 it is at
most 10. -/
theorem raytraceSingleRay_nesting_bounded (E : Env) (scene : Scene) (ray : Ray)
    (level source_id : Int) :
    (raytraceSingleRayNested E scene ray level source_id).1
        = raytraceSingleRay E scene ray level source_id
      ∧ ((raytraceSingleRayNested E scene ray level source_id).2 : Int) ≤ max level 0
      ∧ (raytraceSingleRayNested E scene ray 10 source_id).2 ≤ 10 := by
  have h := nested_spec E scene level.toNat ray level source_id (le_refl _)
  have h10 := nested_spec E scene 10 ray 10 source_id (by decide)
  refine ⟨h.1, ?_, ?_⟩
  · have := h.2
    omega
  · have := h10.2
    omega

/-! ## The nearest-hit search -/

/-- C5, as stated, fails: in `farScene` the only plane reports a hit on the
camera axis, `FLT_MAX` away from the origin, and `getClosestIntersection`
returns the zero-count sentinel, which is the intersection of no hit. -/
theorem getClosestIntersection_far_hit_dropped :
    ¬ NearestAsStated exampleEnv farScene axisRay (-1) := by
  intro h
  obtain ⟨pre, s, post, _, hfn, hres⟩ :=
    h.2 ⟨plane 1 ⟨0, 0, -FLT_MAX⟩ ⟨0, 0, 1⟩ mirror blank, by simp [farScene], farScene_reports⟩
  apply hfn.1.2
  rw [← hres, farScene_nearest]
  rfl

/-- C5, amended. Either no shape other than the excluded one reports a
nonzero-count intersection nearer than `FLT_MAX`, and `getClosestIntersection`
returns the zero-count sentinel; or it returns the intersection of a shape
`s` that is not excluded, reports a nonzero count nearer than `FLT_MAX`, is
strictly nearer than every such hit stored before it and at least as near as
every such hit stored after it: the first of the nearest hits in stored order. -/
theorem getClosestIntersection_first_nearest (E : Env) (scene : Scene) (ray : Ray)
    (skipID : Int) :
    ((∀ s ∈ scene.shapesInScene, reportsHit ray skipID s → FLT_MAX ≤ hitDistance E ray s)
        ∧ getClosestIntersection E scene ray skipID = E.sentinel
        ∧ (getClosestIntersection E scene ray skipID).numberOfIntersections = 0)
      ∨ ∃ pre s post, scene.shapesInScene = pre ++ s :: post
          ∧ s.id ≠ skipID
          ∧ (s.getIntersection ray).numberOfIntersections ≠ 0
          ∧ hitDistance E ray s < FLT_MAX
          ∧ (∀ t ∈ pre, reportsHit ray skipID t → hitDistance E ray s < hitDistance E ray t)
          ∧ (∀ t ∈ post, reportsHit ray skipID t → hitDistance E ray s ≤ hitDistance E ray t)
          ∧ getClosestIntersection E scene ray skipID = s.getIntersection ray := by
  rcases closest_cases E scene ray skipID with
    ⟨hall, hres⟩ | ⟨pre, s, post, hl, hfn, hlt, hres⟩
  · left
    exact ⟨hall, hres, by rw [hres]; rfl⟩
  · right
    exact ⟨pre, s, post, hl, hfn.1.1, hfn.1.2, hlt, hfn.2.1, hfn.2.2, hres⟩

/-- C6. Whenever `getClosestIntersection` returns an intersection of nonzero
count, that intersection is the one reported by a shape of the scene whose id
differs from the excluded id, however near the excluded shape is. -/
theorem getClosestIntersection_not_excluded (E : Env) (scene : Scene) (ray : Ray)
    (skipID : Int)
    (hcount : (getClosestIntersection E scene ray skipID).numberOfIntersections ≠ 0) :
    ∃ s ∈ scene.shapesInScene, s.id ≠ skipID
      ∧ getClosestIntersection E scene ray skipID = s.getIntersection ray := by
  rcases closest_cases E scene ray skipID with
    ⟨_, hres⟩ | ⟨pre, s, post, hl, hfn, _, hres⟩
  · rw [hres] at hcount
    exact absurd rfl hcount
  · exact ⟨s, by simp [hl], hfn.1.1, hres⟩

/-- Witness of C6: on the camera axis of `stackedScene` the excluded plane
(id 1, 5 away) is strictly nearer than the plane returned (id 2, 8 away). -/
theorem getClosestIntersection_not_excluded_witness :
    (getClosestIntersection exampleEnv stackedScene axisRay 1).numberOfIntersections ≠ 0
      ∧ ∃ s ∈ stackedScene.shapesInScene, s.id ≠ 1
          ∧ getClosestIntersection exampleEnv stackedScene axisRay 1
            = s.getIntersection axisRay :=
  ⟨by rw [stackedScene_nearest_skip]; decide,
    getClosestIntersection_not_excluded exampleEnv stackedScene axisRay 1
      (by rw [stackedScene_nearest_skip]; decide)⟩

/-! ## The shadow test -/

/-- C8. For an image of width `W ≥ 0` and height `H ≥ 0`, whatever the scene
and the view point, `getRaysForViewpoint` returns `W * H` entries; their
pixels are pairwise distinct and are exactly the pairs `(x, y)` with
`0 ≤ x < W` and `0 ≤ y < H`; and the entry of pixel `(x, y)` carries the ray
with origin `(0, 0, 0)` and direction `(i, j, -2)`, where
`i = -1 + x * (2 / W)` and `j = -1 + y * (2 / H)` lie in `[-1, 1)`. -/
theorem getRaysForViewpoint_pixels (scene : Scene) (image : ImageBuffer) (viewPoint : Vec3)
    (hW : 0 ≤ image.Width) (hH : 0 ≤ image.Height) :
    ((getRaysForViewpoint scene image viewPoint).length : Int) = image.Width * image.Height
      ∧ ((getRaysForViewpoint scene image viewPoint).map RayAndPixel.pixel).Nodup
      ∧ (∀ x y : Int, (x, y) ∈ (getRaysForViewpoint scene image viewPoint).map RayAndPixel.pixel
          ↔ 0 ≤ x ∧ x < image.Width ∧ 0 ≤ y ∧ y < image.Height)
      ∧ (∀ e ∈ getRaysForViewpoint scene image viewPoint,
          e.ray = Ray.mk ⟨0, 0, 0⟩
              ⟨-1 + (e.x : ℚ) * (2 / (image.Width : ℚ)),
                -1 + (e.y : ℚ) * (2 / (image.Height : ℚ)), -2⟩
            ∧ -1 ≤ e.ray.direction.x ∧ e.ray.direction.x < 1
            ∧ -1 ≤ e.ray.direction.y ∧ e.ray.direction.y < 1) := by
  rw [getRaysForViewpoint_eq]
  refine ⟨?_, pixelRays_nodup _ _, mem_pixelRays_pixels _ _, ?_⟩
  · rw [pixelRays_length]
    push_cast
    rw [Int.toNat_of_nonneg hW, Int.toNat_of_nonneg hH]
  · intro e he
    obtain ⟨hx0, hxW, hy0, hyH, hray⟩ := (mem_pixelRays _ _ e).1 he
    have hi := coordinate_bounds image.Width e.x hx0 hxW
    have hj := coordinate_bounds image.Height e.y hy0 hyH
    rw [hray]
    exact ⟨rfl, hi.1, hi.2, hj.1, hj.2⟩

/-- Witness of C8: an image two pixels wide and three pixels high; the entry
of pixel `(1, 2)` is among the six returned. -/
theorem getRaysForViewpoint_pixels_witness :
    (0 : Int) ≤ smallImage.Width ∧ (0 : Int) ≤ smallImage.Height
      ∧ ((getRaysForViewpoint mirrorScene smallImage ⟨0, 0, 0⟩).length : Int) = 2 * 3
      ∧ (1, 2) ∈ (getRaysForViewpoint mirrorScene smallImage ⟨0, 0, 0⟩).map RayAndPixel.pixel :=
  ⟨by decide, by decide,
    (getRaysForViewpoint_pixels mirrorScene smallImage ⟨0, 0, 0⟩ (by decide) (by decide)).1,
    ((getRaysForViewpoint_pixels mirrorScene smallImage ⟨0, 0, 0⟩
      (by decide) (by decide)).2.2.1 1 2).2 (by decide)⟩

/-- C9. The function `raytraceImage` leaves the buffer at the viewport size with,
after the operations it held before, one `Initialize` followed by one
`SetPixel` for each entry of `getRaysForViewpoint` on the initialised buffer,
in order, whose colour is `raytraceSingleRay` of the scene and the ray of that
entry at level 10 with nothing excluded (`-1`). The pixels of those entries
are pairwise distinct and are exactly the pixels of the image, and the ray of
each entry is the primary ray of its pixel: every pixel is set exactly once.
The scene is an argument that is only read. -/
theorem raytraceImage_sets_each_pixel_once (E : Env) (scene : Scene) (image : ImageBuffer)
    (viewPoint : Vec3) :
    (raytraceImage E scene image viewPoint).ops
        = image.ops ++ ImageOp.Initialize ::
            (getRaysForViewpoint scene (image.Initialize E) viewPoint).map
              (fun r => ImageOp.SetPixel r.x r.y (raytraceSingleRay E scene r.ray 10 (-1)))
      ∧ (raytraceImage E scene image viewPoint).Width = E.viewportWidth
      ∧ (raytraceImage E scene image viewPoint).Height = E.viewportHeight
      ∧ ((getRaysForViewpoint scene (image.Initialize E) viewPoint).map
          RayAndPixel.pixel).Nodup
      ∧ (∀ x y : Int,
          (x, y) ∈ (getRaysForViewpoint scene (image.Initialize E) viewPoint).map
              RayAndPixel.pixel
            ↔ 0 ≤ x ∧ x < E.viewportWidth ∧ 0 ≤ y ∧ y < E.viewportHeight)
      ∧ (∀ r ∈ getRaysForViewpoint scene (image.Initialize E) viewPoint,
          r.ray = primaryRay E.viewportWidth E.viewportHeight r.x r.y) := by
  have hfold := setPixel_fold (fun r => raytraceSingleRay E scene r.ray 10 (-1))
    (getRaysForViewpoint scene (image.Initialize E) viewPoint) (image.Initialize E)
  refine ⟨?_, ?_, ?_, ?_, ?_, ?_⟩
  · unfold raytraceImage
    simp only [hfold]
    simp [ImageBuffer.Initialize]
  · unfold raytraceImage
    simp only [hfold]
    rfl
  · unfold raytraceImage
    simp only [hfold]
    rfl
  · rw [getRaysForViewpoint_eq]
    exact pixelRays_nodup _ _
  · rw [getRaysForViewpoint_eq]
    exact mem_pixelRays_pixels _ _
  · rw [getRaysForViewpoint_eq]
    intro r hr
    exact ((mem_pixelRays _ _ r).1 hr).2.2.2.2

end RayTracer
